import Mathlib

/-!
Verification of the cloud-counter core: region detection, region
configuration parsing/formatting, the discovery dedup cache, the retry
and error-classification layer, and the multi-region inventory
aggregator. Each definition is a shallow embedding of the corresponding
TypeScript function; theorems settle the spec's claims about them.
-/

/-- Lowercase ASCII letter, as tested by the character class [a-z]. -/
def isLowerAZ (c : Char) : Bool := 'a' ≤ c && c ≤ 'z'

/-- ASCII digit, as tested by the character class \d. -/
def isDigit09 (c : Char) : Bool := '0' ≤ c && c ≤ '9'

/-- JS String.prototype.split with a one-character separator, on the
character list: "".split(sep) is [""], and separators at the ends
produce empty fields. -/
def jsSplitCharList (sep : Char) : List Char → List (List Char)
  | [] => [[]]
  | c :: cs =>
      let r := jsSplitCharList sep cs
      if c = sep then [] :: r
      else
        match r with
        | [] => [[c]]
        | h :: t => (c :: h) :: t

/-- JS String.prototype.split with a one-character separator. -/
def jsSplit (sep : Char) (s : String) : List String :=
  (jsSplitCharList sep s.data).map (fun l => String.mk l)

/-- JS Array.prototype.join with a string separator. -/
def jsJoin (sep : String) : List String → String
  | [] => ""
  | [s] => s
  | s :: t :: rest => s ++ sep ++ jsJoin sep (t :: rest)

/-- JS String.prototype.trim: strip whitespace from both ends. -/
def jsTrim (s : String) : String :=
  String.mk (((s.data.dropWhile Char.isWhitespace).reverse.dropWhile
    Char.isWhitespace).reverse)

/-- JS String.prototype.startsWith. -/
def jsStartsWith (s pre : String) : Bool := pre.data.isPrefixOf s.data

/-- JS String.prototype.toLowerCase (on the ASCII range used by the
error messages). -/
def jsToLower (s : String) : String := String.mk (s.data.map Char.toLower)

/-- Embedding of the regex /^[a-z]\x7b2,3\x7d-[a-z]+-\d+$/ used by both
region validators. The three components contain no hyphen, so a string
matches the regex exactly when splitting on the hyphen yields three
parts of the required shapes. -/
def regionPattern (s : String) : Bool :=
  match jsSplit '-' s with
  | [a, b, c] =>
      decide (2 ≤ a.length) && decide (a.length ≤ 3) && a.toList.all isLowerAZ &&
      decide (1 ≤ b.length) && b.toList.all isLowerAZ &&
      decide (1 ≤ c.length) && c.toList.all isDigit09
  | _ => false

/-- Insertion into a JS Set, tracking the elements already seen in
insertion order. -/
def jsSetDedupAux (seen : List String) : List String → List String
  | [] => []
  | x :: xs =>
      if seen.contains x then jsSetDedupAux seen xs
      else x :: jsSetDedupAux (seen ++ [x]) xs

/-- JS [...new Set(l)]: deduplicate keeping the first occurrence of each
element, preserving order. -/
def jsSetDedup (l : List String) : List String := jsSetDedupAux [] l

namespace RegionDetector

/-- The allow-list of known AWS regions in region-detector.ts
(isValidAWSRegion). -/
def validRegionsList : List String :=
  [ "us-east-1", "us-east-2", "us-west-1", "us-west-2",
    "eu-west-1", "eu-west-2", "eu-west-3", "eu-central-1", "eu-central-2",
    "eu-north-1", "eu-south-1", "eu-south-2",
    "ap-northeast-1", "ap-northeast-2", "ap-northeast-3",
    "ap-southeast-1", "ap-southeast-2", "ap-southeast-3", "ap-southeast-4",
    "ap-south-1", "ap-south-2", "ap-east-1",
    "ca-central-1", "ca-west-1",
    "sa-east-1",
    "af-south-1",
    "me-south-1", "me-central-1",
    "il-central-1",
    "cn-north-1", "cn-northwest-1",
    "us-gov-east-1", "us-gov-west-1" ]

/-- RegionDetector.isValidAWSRegion: pattern test and allow-list
membership. -/
def isValidAWSRegion (region : String) : Bool :=
  regionPattern region && validRegionsList.contains region

/-- RegionDetector.filterRegions: partition the raw tokens into valid
and invalid by isValidAWSRegion, then deduplicate each partition with a
JS Set. The filterInvalid flag only gates a console warning in the
source, so it does not affect the returned value. -/
def filterRegions (regions : List String) (filterInvalid : Bool) :
    List String × List String :=
  let validRegions := regions.filter (fun r => isValidAWSRegion r)
  let invalidRegions := regions.filter (fun r => ¬ isValidAWSRegion r)
  let _ := filterInvalid
  (jsSetDedup validRegions, jsSetDedup invalidRegions)

/-- The result record of RegionDetector.detectActiveRegions. -/
structure RegionDetectionResult where
  activeRegions : List String
  invalidRegions : List String
  totalFound : Int
  executionTime : Int
  costIncurred : Rat
  deriving Repr, DecidableEq

/-- RegionDetector.detectActiveRegions, as a function of the raw region
tokens returned by the Cost Explorer dimension query (the list of
defined DimensionValues) and of the measured execution time. totalFound
is the length of the raw list, while the two partitions are
deduplicated. -/
def detectActiveRegions (allRegions : List String) (filterInvalid : Bool)
    (executionTime : Int) : RegionDetectionResult :=
  let p := filterRegions allRegions filterInvalid
  { activeRegions := p.1
    invalidRegions := p.2
    totalFound := allRegions.length
    executionTime := executionTime
    costIncurred := 1 / 100 }

/-- RegionDetector.validateDetectionResult: the structural checks on a
detection result, returning the list of issues (identified here by
English tags standing for the source's message strings). -/
def validateDetectionResult (result : RegionDetectionResult) :
    Bool × List String :=
  let issues₀ : List String :=
    if result.activeRegions.length = 0 ∧ result.invalidRegions.length = 0 then
      ["no-regions-detected"] else []
  let issues₁ := issues₀ ++
    (if result.executionTime ≤ 0 then ["invalid-execution-time"] else [])
  let issues₂ := issues₁ ++
    (if result.costIncurred < 0 then ["negative-cost"] else [])
  let issues₃ := issues₂ ++
    (if result.totalFound ≠
        result.activeRegions.length + result.invalidRegions.length then
      ["total-mismatch"] else [])
  let allR := result.activeRegions ++ result.invalidRegions
  let issues₄ := issues₃ ++
    (if allR.length ≠ (jsSetDedup allR).length then ["duplicate-regions"] else [])
  (issues₄.length = 0, issues₄)

end RegionDetector

namespace ConfigManager

/-- The allow-list of known AWS regions in config-manager's private
isValidAWSRegion (a shorter list than the detector's). -/
def validRegionsList : List String :=
  [ "us-east-1", "us-east-2", "us-west-1", "us-west-2",
    "eu-west-1", "eu-west-2", "eu-west-3", "eu-central-1", "eu-north-1",
    "eu-south-1",
    "ap-northeast-1", "ap-northeast-2", "ap-northeast-3",
    "ap-southeast-1", "ap-southeast-2", "ap-south-1", "ap-east-1",
    "ca-central-1", "sa-east-1", "af-south-1", "me-south-1",
    "cn-north-1", "cn-northwest-1",
    "us-gov-east-1", "us-gov-west-1" ]

/-- ConfigManager.isValidAWSRegion: pattern test and allow-list
membership. -/
def isValidAWSRegion (region : String) : Bool :=
  regionPattern region && validRegionsList.contains region

/-- ConfigManager.parseRegions: split the comma-separated string, trim
each token, drop empty tokens, drop invalid tokens, deduplicate. The
guard covers both the falsy-string check and the all-whitespace
check of the source. -/
def parseRegions (regionString : String) : List String :=
  if jsTrim regionString = "" then []
  else
    jsSetDedup ((((jsSplit ',' regionString).map jsTrim).filter
      (fun r => 0 < r.length)).filter (fun r => isValidAWSRegion r))

/-- ConfigManager.formatRegions: keep the valid tokens, deduplicate,
join with commas. -/
def formatRegions (regions : List String) : String :=
  jsJoin "," (jsSetDedup (regions.filter (fun r => isValidAWSRegion r)))

/-- ConfigManager.updateRegionConfig, with the file I/O made explicit:
fileRead is the outcome of reading the env file (a read failure is
swallowed and treated as an empty file, matching the inner try/catch),
and writeFails tells whether the final writeFile call fails. The value
returned is the boolean result of the call paired with the content
written (none when nothing was written). Every thrown error — the
no-valid-region Error as well as a write failure — is caught by the
outer catch, which logs it and returns false. -/
def updateRegionConfig (newRegions : List String)
    (fileRead : Except String String) (writeFails : Bool) :
    Bool × Option String :=
  let validRegions := newRegions.filter (fun r => isValidAWSRegion r)
  if validRegions.length = 0 then (false, none)
  else
    let fileContent := match fileRead with | .ok c => c | .error _ => ""
    let lines := jsSplit '\n' fileContent
    let newRegionLine := "AWS_REGION=" ++ formatRegions validRegions
    let newLines :=
      match lines.findIdx? (fun l => jsStartsWith (jsTrim l) "AWS_REGION=") with
      | some i => lines.set i newRegionLine
      | none => lines ++ [newRegionLine]
    if writeFails then (false, none) else (true, some (jsJoin "\n" newLines))

end ConfigManager

/-- Interpolation of a possibly-undefined string into a JS template
literal: undefined prints as the text "undefined". -/
def jsTemplate : Option String → String
  | some s => s
  | none => "undefined"

namespace ErrorHandler

/-- A JS Error as consumed by the error handler: only its name and
message are inspected. -/
structure JSError where
  name : String
  message : String
  deriving Repr, DecidableEq

/-- JS String.prototype.includes. -/
def jsIncludes (s pat : String) : Bool := decide (pat.data <:+: s.data)

/-- The ErrorResponse record returned by the classifier methods. -/
structure ErrorResponse where
  message : String
  action : String
  recoverable : Bool
  errorCode : Option String
  retryAfter : Option Nat
  deriving Repr, DecidableEq

/-- The RetryConfig record. The source's backoffMultiplier is a JS
number used as Math.pow base; the callers in this repository only use
the integer default 2, so it is embedded as a natural number. -/
structure RetryConfig where
  maxRetries : Nat
  baseDelay : Nat
  maxDelay : Nat
  backoffMultiplier : Nat
  deriving Repr, DecidableEq

/-- ErrorHandler.handleCostExplorerError: ordered substring matching on
the lowercased message (and the error name for the permission case),
first match wins. -/
def handleCostExplorerError (e : JSError) : ErrorResponse :=
  let msg := jsToLower e.message
  if e.name = "UnauthorizedOperation" || jsIncludes msg "unauthorized" ||
      jsIncludes msg "access denied" then
    { message := "Cost Explorer APIの権限が不足しています"
      action := "IAMユーザーまたはロールに「ce:GetDimensionValues」権限を追加してください。詳細はAWSコンソールのIAM設定を確認してください。"
      recoverable := true
      errorCode := some "COST_EXPLORER_PERMISSION_DENIED"
      retryAfter := none }
  else if jsIncludes msg "throttling" || jsIncludes msg "rate exceeded" ||
      jsIncludes msg "quota exceeded" then
    { message := "Cost Explorer APIのレート制限に達しました"
      action := "しばらく待ってから再試行してください。通常、1分後に利用可能になります。"
      recoverable := true
      errorCode := some "COST_EXPLORER_RATE_LIMIT"
      retryAfter := some 60 }
  else if jsIncludes msg "timeout" || jsIncludes msg "timed out" then
    { message := "Cost Explorer APIへの接続がタイムアウトしました"
      action := "ネットワーク接続を確認して再試行してください。"
      recoverable := true
      errorCode := some "COST_EXPLORER_TIMEOUT"
      retryAfter := none }
  else if jsIncludes msg "network" || jsIncludes msg "connection" ||
      jsIncludes msg "enotfound" then
    { message := "ネットワーク接続エラーが発生しました"
      action := "インターネット接続を確認し、ファイアウォール設定を確認してください。"
      recoverable := true
      errorCode := some "NETWORK_ERROR"
      retryAfter := none }
  else
    { message := "Cost Explorer APIエラー: " ++ e.message
      action := "AWS認証情報とネットワーク接続を確認してください。問題が続く場合は、AWSサービスの状態を確認してください。"
      recoverable := true
      errorCode := some "COST_EXPLORER_UNKNOWN"
      retryAfter := none }

/-- ErrorHandler.handleResourceError: classification of inventory-API
errors, parameterized by an optional region. -/
def handleResourceError (e : JSError) (region : Option String) : ErrorResponse :=
  let msg := jsToLower e.message
  let regionInfo := match region with
    | some r => " (リージョン: " ++ r ++ ")"
    | none => ""
  if e.name = "UnauthorizedOperation" || jsIncludes msg "unauthorized" ||
      jsIncludes msg "access denied" then
    { message := "リソースAPIの権限が不足しています" ++ regionInfo
      action := "IAMユーザーまたはロールに「ReadOnlyAccess」ポリシーを追加してください。"
      recoverable := true
      errorCode := some "RESOURCE_API_PERMISSION_DENIED"
      retryAfter := none }
  else if jsIncludes msg "invalid region" || jsIncludes msg "region not found" ||
      (jsIncludes msg "region" && jsIncludes msg "not supported") then
    { message := "無効なリージョンが指定されました: " ++ jsTemplate region
      action := "有効なAWSリージョン名を確認してください。"
      recoverable := false
      errorCode := some "INVALID_REGION"
      retryAfter := none }
  else if jsIncludes msg "throttling" || jsIncludes msg "rate exceeded" then
    { message := "APIレート制限に達しました" ++ regionInfo
      action := "しばらく待ってから再試行してください。"
      recoverable := true
      errorCode := some "RESOURCE_RATE_LIMIT"
      retryAfter := some 30 }
  else
    { message := "リソース取得エラー" ++ regionInfo ++ ": " ++ e.message
      action := "AWS認証情報とリージョン設定を確認してください。"
      recoverable := true
      errorCode := some "RESOURCE_ERROR"
      retryAfter := none }

/-- The non-retryable substring list of ErrorHandler.isRetryableError. -/
def nonRetryableErrors : List String :=
  ["unauthorized", "access denied", "invalid region", "permission denied",
   "no such file"]

/-- ErrorHandler.isRetryableError: an error is retried unless its
lowercased message contains one of the non-retryable substrings. -/
def isRetryableError (e : JSError) : Bool :=
  !(nonRetryableErrors.any (fun pat => jsIncludes (jsToLower e.message) pat))

/-- The observable trace of one withRetry execution: the final result
(the value returned or the error finally thrown), the number of times
the operation was invoked, and the back-off sleeps performed. -/
structure RetryTrace (α : Type) where
  result : Except JSError α
  calls : Nat
  delays : List Nat
  deriving Repr

/-- The attempt loop of ErrorHandler.withRetry. The operation is
modelled as a function from the attempt index to that attempt's
outcome; remaining counts the attempts still allowed after the current
one, so remaining = 0 is the source's attempt == maxRetries test. On a
failure before the last attempt the source first checks whether
attempts are exhausted, then whether the error is retryable (breaking
without a sleep in both cases), and otherwise sleeps
min(baseDelay * backoffMultiplier ^ attempt, maxDelay) and retries. -/
def withRetryGo {α : Type} (op : Nat → Except JSError α) (cfg : RetryConfig)
    (attempt : Nat) : Nat → RetryTrace α
  | 0 =>
      match op attempt with
      | .ok v => ⟨.ok v, 1, []⟩
      | .error e => ⟨.error e, 1, []⟩
  | remaining + 1 =>
      match op attempt with
      | .ok v => ⟨.ok v, 1, []⟩
      | .error e =>
          if isRetryableError e then
            let d := min (cfg.baseDelay * cfg.backoffMultiplier ^ attempt)
              cfg.maxDelay
            let t := withRetryGo op cfg (attempt + 1) remaining
            ⟨t.result, t.calls + 1, d :: t.delays⟩
          else ⟨.error e, 1, []⟩

/-- ErrorHandler.withRetry: run the attempt loop from attempt 0 with
maxRetries further attempts allowed. -/
def withRetry {α : Type} (op : Nat → Except JSError α) (cfg : RetryConfig) :
    RetryTrace α :=
  withRetryGo op cfg 0 cfg.maxRetries

end ErrorHandler

namespace DiscoveryCache

/-- The DiscoveryCacheEntry record persisted in the single cache slot.
requestCount is embedded as an integer so that the JS arithmetic
Math.max(0, requestCount - 1) is represented exactly even for
out-of-range stored values. -/
structure DiscoveryCacheEntry where
  lastDiscovery : String
  timestamp : String
  discoveredRegions : List String
  executionTime : Int
  costIncurred : Rat
  requestCount : Int
  deriving Repr, DecidableEq

/-- The state of the cache file on disk: absent (readFile fails with
ENOENT), unreadable (readFile fails with any other error), corrupt
(readable but JSON.parse throws), or holding a parsed entry. -/
inductive CacheFile where
  | missing : CacheFile
  | ioError : CacheFile
  | corrupt : CacheFile
  | stored : DiscoveryCacheEntry → CacheFile
  deriving Repr, DecidableEq

/-- DiscoveryCache.loadCache: every failure path — missing file,
unreadable file, unparseable JSON — is caught and yields null. -/
def loadCache : CacheFile → Option DiscoveryCacheEntry
  | .missing => none
  | .ioError => none
  | .corrupt => none
  | .stored e => some e

/-- DiscoveryCache.saveCache: overwrite the single slot. -/
def saveCache (e : DiscoveryCacheEntry) (_ : CacheFile) : CacheFile :=
  .stored e

/-- DiscoveryCache.checkTodayExecution, with the current date passed
explicitly: when a record for today exists, increment its requestCount,
persist the increment, and return the incremented record; otherwise
return null and leave storage untouched. Any load failure was already
turned into null by loadCache, and the surrounding try/catch also
returns null, so the call never throws. -/
def checkTodayExecution (today : String) (f : CacheFile) :
    Option DiscoveryCacheEntry × CacheFile :=
  match loadCache f with
  | some cache =>
      if cache.lastDiscovery = today then
        let cache' := { cache with requestCount := cache.requestCount + 1 }
        (some cache', saveCache cache' f)
      else (none, f)
  | none => (none, f)

/-- DiscoveryCache.saveExecution, with today's date key and the ISO
timestamp passed explicitly: always overwrite the slot with a fresh
record whose requestCount is 1. -/
def saveExecution (today timestamp : String) (regions : List String)
    (executionTime : Int) (costIncurred : Rat) (f : CacheFile) : CacheFile :=
  saveCache
    { lastDiscovery := today
      timestamp := timestamp
      discoveredRegions := regions
      executionTime := executionTime
      costIncurred := costIncurred
      requestCount := 1 } f

/-- The CacheStats record returned by DiscoveryCache.getStats. -/
structure CacheStats where
  totalExecutions : Nat
  totalCost : Rat
  averageExecutionTime : Int
  lastExecution : Option String
  preventedDuplicates : Int
  deriving Repr, DecidableEq

/-- DiscoveryCache.getStats: zeros when the slot does not load, and
otherwise the single stored execution with
preventedDuplicates = max(0, requestCount - 1). -/
def getStats (f : CacheFile) : CacheStats :=
  match loadCache f with
  | none =>
      { totalExecutions := 0, totalCost := 0, averageExecutionTime := 0,
        lastExecution := none, preventedDuplicates := 0 }
  | some cache =>
      { totalExecutions := 1
        totalCost := cache.costIncurred
        averageExecutionTime := cache.executionTime
        lastExecution := some cache.timestamp
        preventedDuplicates := max 0 (cache.requestCount - 1) }

/-- k sequential checkTodayExecution calls on the same day, keeping
only the evolving file state. -/
def applyChecks (today : String) : Nat → CacheFile → CacheFile
  | 0, f => f
  | k + 1, f => applyChecks today k (checkTodayExecution today f).2

end DiscoveryCache

namespace MultiRegionClient

/-- The CloudResource record of multi-region-client.ts. -/
structure CloudResource where
  id : String
  name : String
  type : String
  status : String
  region : String
  regionDisplayName : String
  crossRegionId : String
  details : Option String
  availability : Option String
  lastSeen : Option String
  resourceArn : Option String
  deriving Repr, DecidableEq

/-- The RegionResult record: one region's outcome. -/
structure RegionResult where
  region : String
  resources : List CloudResource
  error : Option String
  deriving Repr, DecidableEq

/-- JS truthiness for an optional string: undefined and the empty
string are falsy. -/
def jsTruthy : Option String → Bool
  | some s => s ≠ ""
  | none => false

/-- JS a || b on optional strings. -/
def jsOr (a b : Option String) : Option String :=
  if jsTruthy a then a else b

/-- getRegionDisplayName: the display-name table, defaulting to the
region code itself. -/
def getRegionDisplayName (region : String) : String :=
  let table : List (String × String) :=
    [ ("us-east-1", "US East (N. Virginia)"),
      ("us-east-2", "US East (Ohio)"),
      ("us-west-1", "US West (N. California)"),
      ("us-west-2", "US West (Oregon)"),
      ("eu-west-1", "Europe (Ireland)"),
      ("eu-west-2", "Europe (London)"),
      ("eu-west-3", "Europe (Paris)"),
      ("eu-central-1", "Europe (Frankfurt)"),
      ("eu-north-1", "Europe (Stockholm)"),
      ("ap-northeast-1", "Asia Pacific (Tokyo)"),
      ("ap-northeast-2", "Asia Pacific (Seoul)"),
      ("ap-northeast-3", "Asia Pacific (Osaka)"),
      ("ap-southeast-1", "Asia Pacific (Singapore)"),
      ("ap-southeast-2", "Asia Pacific (Sydney)"),
      ("ap-south-1", "Asia Pacific (Mumbai)"),
      ("ap-east-1", "Asia Pacific (Hong Kong)"),
      ("ca-central-1", "Canada (Central)"),
      ("sa-east-1", "South America (São Paulo)"),
      ("af-south-1", "Africa (Cape Town)"),
      ("me-south-1", "Middle East (Bahrain)") ]
  match table.lookup region with
  | some n => n
  | none => region

/-- The fields of one raw EC2 instance record that getEC2Resources
reads: the instance id, the value of the Name tag if present, the state
name, the instance type, and the availability zone. -/
structure RawInstance where
  instanceId : Option String
  nameTag : Option String
  stateName : Option String
  instanceType : Option String
  availabilityZone : Option String
  deriving Repr, DecidableEq

/-- The CloudResource built from one EC2 instance; now is the ISO
timestamp taken when the record is built. The crossRegionId
interpolates the raw InstanceId into a template literal (so a missing
id prints as "undefined"), while the id field applies
InstanceId || 'unknown'. -/
def mkEC2Resource (region now : String) (inst : RawInstance) : CloudResource :=
  { id := (jsOr inst.instanceId (some "unknown")).getD "unknown"
    name := (jsOr (jsOr inst.nameTag inst.instanceId) (some "Unknown")).getD "Unknown"
    type := "EC2"
    status := (jsOr inst.stateName (some "unknown")).getD "unknown"
    region := region
    regionDisplayName := getRegionDisplayName region
    crossRegionId := "ec2-" ++ region ++ "-" ++ jsTemplate inst.instanceId
    details := inst.instanceType
    availability := some ((jsOr inst.availabilityZone (some region)).getD region)
    lastSeen := some now
    resourceArn := some ("arn:aws:ec2:" ++ region ++ ":*:instance/" ++
      jsTemplate inst.instanceId) }

/-- The fields of one raw Lambda function record that
getLambdaResources reads. -/
structure RawFunction where
  functionArn : Option String
  functionName : Option String
  runtime : Option String
  deriving Repr, DecidableEq

/-- The CloudResource built from one Lambda function. The id field is
FunctionArn || 'unknown', but the crossRegionId interpolates the
FunctionName — not the raw id — into its template literal. -/
def mkLambdaResource (region now : String) (fn : RawFunction) : CloudResource :=
  { id := (jsOr fn.functionArn (some "unknown")).getD "unknown"
    name := (jsOr fn.functionName (some "Unknown")).getD "Unknown"
    type := "Lambda"
    status := "Active"
    region := region
    regionDisplayName := getRegionDisplayName region
    crossRegionId := "lambda-" ++ region ++ "-" ++ jsTemplate fn.functionName
    details := fn.runtime
    availability := some region
    lastSeen := some now
    resourceArn := fn.functionArn }

/-- getEC2Resources on a successful DescribeInstances response: one
resource per instance, per reservation, in response order. -/
def getEC2Resources (region now : String)
    (reservations : List (List RawInstance)) : List CloudResource :=
  (reservations.map (fun insts => insts.map (mkEC2Resource region now))).flatten

/-- getLambdaResources on a successful ListFunctions response. -/
def getLambdaResources (region now : String)
    (functions : List RawFunction) : List CloudResource :=
  functions.map (mkLambdaResource region now)

/-- getResourcesFromRegion, with the two settled sub-fetch outcomes
(EC2 and Lambda) passed explicitly. Promise.all rejects as soon as
either sub-fetch rejects; when both reject the earlier rejection wins,
which this sequential embedding resolves in favour of the EC2 fetch.
The rejection is caught and turned into a RegionResult carrying the
error message and an empty resource list, so the call itself never
rejects. -/
def getResourcesFromRegion (region : String)
    (ec2 lambdaRes : Except String (List CloudResource)) : RegionResult :=
  match ec2, lambdaRes with
  | .ok a, .ok b => { region := region, resources := a ++ b, error := none }
  | .error m, _ => { region := region, resources := [], error := some m }
  | .ok _, .error m => { region := region, resources := [], error := some m }

/-- One iteration of the forEach over the settled per-region outcomes
of getResourcesFromAllRegions: the outcome is looked up from the fetch
function (an Except.error models a rejected per-region promise, which
Promise.allSettled also tolerates). A successful outcome with no error
field appends its resources to the accumulator; any failure only
appends a message to the side list of errors, which is logged and
never raised. -/
def aggregateStep (fetch : String → Except String RegionResult)
    (acc : List CloudResource × List String) (region : String) :
    List CloudResource × List String :=
  match fetch region with
  | .ok regionResult =>
      match regionResult.error with
      | some e => (acc.1, acc.2 ++ [region ++ ": " ++ e])
      | none => (acc.1 ++ regionResult.resources, acc.2)
  | .error m => (acc.1, acc.2 ++ [region ++ ": " ++ m])

/-- getResourcesFromAllRegions: the empty-input early return, then the
forEach over the settled results, of which only the accumulated
resource list is returned. -/
def getResourcesFromAllRegions (regions : List String)
    (fetch : String → Except String RegionResult) : List CloudResource :=
  if regions.length = 0 then []
  else (regions.foldl (aggregateStep fetch) ([], [])).1

/-- Modelled from the spec: the §4.5 description of the merge step,
"concatenate all successful outcomes' items, in region-input order,
preserving each task's internal item order", omitting failed regions.
Compared against getResourcesFromAllRegions in the refinement theorem
for the aggregator claim. -/
def specSuccessfulConcat (regions : List String)
    (fetch : String → Except String RegionResult) : List CloudResource :=
  (regions.map (fun region =>
    match fetch region with
    | .ok regionResult =>
        match regionResult.error with
        | some _ => []
        | none => regionResult.resources
    | .error _ => [])).flatten

end MultiRegionClient

/-- jsSetDedupAux leaves a duplicate-free list disjoint from the seen
set unchanged. -/
theorem jsSetDedupAux_eq_self {l : List String} (seen : List String)
    (hd : ∀ x ∈ l, x ∉ seen) (h : l.Nodup) :
    jsSetDedupAux seen l = l := by
  induction l generalizing seen with
  | nil => rfl
  | cons x xs ih =>
      rcases List.nodup_cons.mp h with ⟨hx, hxs⟩
      have hc : x ∉ seen := hd x (List.mem_cons_self x xs)
      have hd' : ∀ y ∈ xs, y ∉ seen ++ [x] := by
        intro y hy
        simp only [List.mem_append, List.mem_singleton]
        rintro (hs | rfl)
        · exact hd y (List.mem_cons_of_mem x hy) hs
        · exact hx hy
      simp [jsSetDedupAux, hc, ih (seen ++ [x]) hd' hxs]

/-- jsSetDedup leaves a duplicate-free list unchanged. -/
theorem jsSetDedup_eq_self {l : List String} (h : l.Nodup) :
    jsSetDedup l = l :=
  jsSetDedupAux_eq_self [] (by simp) h

/-- A list's length is the sum of the lengths of its filter by p and its
filter by the negation of p. -/
theorem length_filter_split (p : String → Bool) (l : List String) :
    l.length = (l.filter p).length + (l.filter (fun r => ¬ p r)).length := by
  induction l with
  | nil => rfl
  | cons x xs ih =>
      by_cases hx : p x
      · simp [List.filter_cons, hx, ih]
        omega
      · simp [List.filter_cons, hx, ih]
        omega

/-- The first component of the aggregation fold: the accumulated
resources are the starting accumulator followed by the successful
regions' items in input order. -/
theorem aggregateFold_fst (fetch : String → Except String MultiRegionClient.RegionResult) :
    ∀ (regions : List String)
      (acc : List MultiRegionClient.CloudResource × List String),
      (regions.foldl (MultiRegionClient.aggregateStep fetch) acc).1 =
        acc.1 ++ MultiRegionClient.specSuccessfulConcat regions fetch := by
  intro regions
  induction regions with
  | nil =>
      intro acc
      simp [MultiRegionClient.specSuccessfulConcat]
  | cons r rest ih =>
      intro acc
      simp only [List.foldl_cons]
      rw [ih]
      cases hf : fetch r with
      | ok rr =>
          cases he : rr.error with
          | some e =>
              simp [MultiRegionClient.aggregateStep,
                MultiRegionClient.specSuccessfulConcat, hf, he]
          | none =>
              simp [MultiRegionClient.aggregateStep,
                MultiRegionClient.specSuccessfulConcat, hf, he]
      | error m =>
          simp [MultiRegionClient.aggregateStep,
            MultiRegionClient.specSuccessfulConcat, hf]

/-- C4: for every region list and every configuration of per-region
outcomes, getResourcesFromAllRegions never throws and returns exactly
the successful regions' items, concatenated in input-region order with
each region's internal order preserved, omitting the failed regions'
items — the spec-side merge description specSuccessfulConcat. -/
theorem C4_aggregator_merges_successes_in_order
    (regions : List String)
    (fetch : String → Except String MultiRegionClient.RegionResult) :
    MultiRegionClient.getResourcesFromAllRegions regions fetch =
      MultiRegionClient.specSuccessfulConcat regions fetch := by
  cases regions with
  | nil => rfl
  | cons r rest =>
      simp only [MultiRegionClient.getResourcesFromAllRegions, List.length_cons]
      rw [if_neg (by simp)]
      rw [aggregateFold_fst fetch (r :: rest) ([], [])]
      rfl

/-- C9: getResourcesFromRegion never rejects; its error field is absent
exactly when both sub-fetches succeeded, any sub-fetch failure empties
the resource list (discarding whatever the other sub-fetch returned),
and on success the resources are the EC2 items followed by the Lambda
items. -/
theorem C9_region_all_or_nothing (region : String)
    (ec2 lam : Except String (List MultiRegionClient.CloudResource)) :
    ((MultiRegionClient.getResourcesFromRegion region ec2 lam).error = none ↔
      (∃ a b, ec2 = .ok a ∧ lam = .ok b)) ∧
    ((MultiRegionClient.getResourcesFromRegion region ec2 lam).error ≠ none →
      (MultiRegionClient.getResourcesFromRegion region ec2 lam).resources = []) ∧
    (∀ a b, ec2 = .ok a → lam = .ok b →
      (MultiRegionClient.getResourcesFromRegion region ec2 lam).resources
        = a ++ b) := by
  rcases ec2 with m | a <;> rcases lam with m' | b <;>
    simp [MultiRegionClient.getResourcesFromRegion]

/-- C9 witness: at a concrete failing EC2 sub-fetch with a successful
Lambda sub-fetch, the region result drops the Lambda items. -/
theorem C9_region_all_or_nothing_witness :
    (MultiRegionClient.getResourcesFromRegion "us-east-1"
      (.error "AccessDenied")
      (.ok [MultiRegionClient.mkLambdaResource "us-east-1" "t"
        ⟨some "arn:f", some "f", none⟩])).resources = [] :=
  (C9_region_all_or_nothing "us-east-1" (.error "AccessDenied")
    (.ok [MultiRegionClient.mkLambdaResource "us-east-1" "t"
      ⟨some "arn:f", some "f", none⟩])).2.1
    (by simp [MultiRegionClient.getResourcesFromRegion])

/-- C10: checkTodayExecution returns null without touching storage on
every storage failure — missing file, unreadable file, and unparseable
JSON alike — so each failure state is indistinguishable, through this
call, from the absence of a record. (The embedding is total: the
source's catch-alls make the call never throw.) -/
theorem C10_check_failure_reads_as_absent (today : String) :
    DiscoveryCache.checkTodayExecution today .missing = (none, .missing) ∧
    DiscoveryCache.checkTodayExecution today .ioError = (none, .ioError) ∧
    DiscoveryCache.checkTodayExecution today .corrupt = (none, .corrupt) :=
  ⟨rfl, rfl, rfl⟩

/-- C1 counterexample: on the raw token list ["us-east-1", "us-east-1"]
the detection result has totalFound 2 (the raw count) while the
deduplicated partitions hold one token in total, so the claimed
equation fails; the result even fails the detector's own
validateDetectionResult cross-check. -/
theorem C1_claim_counterexample :
    ¬ ((RegionDetector.detectActiveRegions ["us-east-1", "us-east-1"] true 5).totalFound =
        (RegionDetector.detectActiveRegions ["us-east-1", "us-east-1"] true 5).activeRegions.length +
        (RegionDetector.detectActiveRegions ["us-east-1", "us-east-1"] true 5).invalidRegions.length) ∧
    (RegionDetector.validateDetectionResult
      (RegionDetector.detectActiveRegions ["us-east-1", "us-east-1"] true 5)).1 = false := by
  refine ⟨by decide, ?_⟩
  simp [RegionDetector.validateDetectionResult, RegionDetector.detectActiveRegions,
    RegionDetector.filterRegions, RegionDetector.isValidAWSRegion,
    jsSetDedup, jsSetDedupAux]

/-- C1 (amended): whenever the raw token list returned by the usage
query is duplicate-free, the detection result satisfies
totalFound = activeRegions.length + invalidRegions.length; in general
totalFound is the raw token count while the partitions are
deduplicated. -/
theorem C1_totalFound_consistency (raw : List String) (fi : Bool) (t : Int)
    (h : raw.Nodup) :
    (RegionDetector.detectActiveRegions raw fi t).totalFound =
      (RegionDetector.detectActiveRegions raw fi t).activeRegions.length +
        (RegionDetector.detectActiveRegions raw fi t).invalidRegions.length := by
  simp only [RegionDetector.detectActiveRegions, RegionDetector.filterRegions]
  rw [jsSetDedup_eq_self (h.filter _), jsSetDedup_eq_self (h.filter _)]
  exact_mod_cast length_filter_split
    (fun r => RegionDetector.isValidAWSRegion r) raw

/-- C1 witness: the duplicate-free raw list ["us-east-1",
"not-a-region"] satisfies the consistency equation. -/
theorem C1_totalFound_consistency_witness :
    (["us-east-1", "not-a-region"] : List String).Nodup ∧
    (RegionDetector.detectActiveRegions ["us-east-1", "not-a-region"] true 7).totalFound =
      (RegionDetector.detectActiveRegions ["us-east-1", "not-a-region"] true 7).activeRegions.length +
        (RegionDetector.detectActiveRegions ["us-east-1", "not-a-region"] true 7).invalidRegions.length :=
  ⟨by decide, C1_totalFound_consistency ["us-east-1", "not-a-region"] true 7 (by decide)⟩

/-- C3 counterexample: no storage I/O failure inside updateRegionConfig
propagates as a structured error. With a failing write, the call on the
valid candidate ["us-east-1"] returns normally with false and writes
nothing — identical to the value produced by a mere invalid-input
failure with a healthy file system — and with a failing read (and a
healthy write) the same call proceeds as if the file were empty,
writes the region line, and returns true. -/
theorem C3_claim_counterexample :
    ConfigManager.updateRegionConfig ["us-east-1"] (.ok "") true = (false, none) ∧
    ConfigManager.updateRegionConfig ["totally-invalid"] (.ok "") false = (false, none) ∧
    ConfigManager.updateRegionConfig ["us-east-1"] (.error "EACCES") false =
      (true, some "\nAWS_REGION=us-east-1") := by
  exact ⟨by decide, by decide, by decide⟩

/-- C3 (amended): a storage I/O failure inside updateRegionConfig never
propagates to the caller. For every candidate list and read outcome, a
failing write is caught by the outer try/catch and the call returns
false with nothing written — the same value an invalid-input failure
produces, so the failure is visible only as the boolean, never as a
thrown or structured error. A failing read is swallowed by the inner
catch and treated as an empty file, so the run is indistinguishable
from one that read an empty file and can still write and return
true. -/
theorem C3_update_write_failure_returns_false :
    (∀ (newRegions : List String) (fileRead : Except String String),
      ConfigManager.updateRegionConfig newRegions fileRead true = (false, none)) ∧
    (∀ (newRegions : List String) (msg : String) (writeFails : Bool),
      ConfigManager.updateRegionConfig newRegions (.error msg) writeFails =
        ConfigManager.updateRegionConfig newRegions (.ok "") writeFails) := by
  constructor
  · intro newRegions fileRead
    unfold ConfigManager.updateRegionConfig
    split <;> simp
  · intro newRegions msg writeFails
    rfl

/-- After k same-day checkTodayExecution calls starting from a stored
record for today, the slot holds the record with its requestCount
increased by k. -/
theorem applyChecks_stored (today : String) :
    ∀ (k : Nat) (e : DiscoveryCache.DiscoveryCacheEntry),
      e.lastDiscovery = today →
      DiscoveryCache.applyChecks today k (.stored e) =
        .stored { e with requestCount := e.requestCount + k } := by
  intro k
  induction k with
  | zero =>
      intro e he
      simp [DiscoveryCache.applyChecks]
  | succ k ih =>
      intro e he
      have hstep : (DiscoveryCache.checkTodayExecution today (.stored e)).2 =
          .stored { e with requestCount := e.requestCount + 1 } := by
        simp [DiscoveryCache.checkTodayExecution, DiscoveryCache.loadCache,
          DiscoveryCache.saveCache, he]
      show DiscoveryCache.applyChecks today k
          (DiscoveryCache.checkTodayExecution today (.stored e)).2 = _
      rw [hstep, ih { e with requestCount := e.requestCount + 1 } (by simp [he])]
      congr 1
      simp only []
      congr 1
      push_cast
      ring

/-- C5: starting from one saveExecution, after k sequential same-day
checkTodayExecution calls the stored record's requestCount is 1 + k,
the next check still returns the incremented record (so every one of
the k checks returned a record, not absent), and getStats reports
preventedDuplicates = k. -/
theorem C5_cache_dedup_counts (today ts : String) (regions : List String)
    (t : Int) (cost : Rat) (f : DiscoveryCache.CacheFile) (k : Nat) :
    DiscoveryCache.applyChecks today k
        (DiscoveryCache.saveExecution today ts regions t cost f) =
      .stored ⟨today, ts, regions, t, cost, 1 + k⟩ ∧
    (DiscoveryCache.checkTodayExecution today
        (DiscoveryCache.applyChecks today k
          (DiscoveryCache.saveExecution today ts regions t cost f))).1 =
      some ⟨today, ts, regions, t, cost, 1 + k + 1⟩ ∧
    (DiscoveryCache.getStats
        (DiscoveryCache.applyChecks today k
          (DiscoveryCache.saveExecution today ts regions t cost f))).preventedDuplicates
      = k := by
  have h1 := applyChecks_stored today k ⟨today, ts, regions, t, cost, 1⟩ rfl
  have h2 : DiscoveryCache.saveExecution today ts regions t cost f =
      .stored ⟨today, ts, regions, t, cost, 1⟩ := rfl
  rw [h2, h1]
  refine ⟨rfl, ?_, ?_⟩
  · simp [DiscoveryCache.checkTodayExecution, DiscoveryCache.loadCache,
      DiscoveryCache.saveCache]
  · simp only [DiscoveryCache.getStats, DiscoveryCache.loadCache]
    have harith : (1 : Int) + k - 1 = k := by ring
    rw [harith]
    exact max_eq_right (Int.natCast_nonneg k)

/-- Every execution of the retry loop invokes the operation at least
once. -/
theorem withRetryGo_calls_pos {α : Type}
    (op : Nat → Except ErrorHandler.JSError α) (cfg : ErrorHandler.RetryConfig)
    (attempt remaining : Nat) :
    1 ≤ (ErrorHandler.withRetryGo op cfg attempt remaining).calls := by
  cases remaining with
  | zero => cases hop : op attempt <;> simp [ErrorHandler.withRetryGo, hop]
  | succ r =>
      cases hop : op attempt with
      | ok v => simp [ErrorHandler.withRetryGo, hop]
      | error e =>
          by_cases hr : ErrorHandler.isRetryableError e = true <;>
            simp [ErrorHandler.withRetryGo, hop, hr]

/-- When every attempt fails with a retryable error, the loop performs
every allowed attempt and ends with the last attempt's error. -/
theorem withRetryGo_all_fail {α : Type}
    (op : Nat → Except ErrorHandler.JSError α) (cfg : ErrorHandler.RetryConfig)
    (e : Nat → ErrorHandler.JSError)
    (hop : ∀ i, op i = .error (e i))
    (hr : ∀ i, ErrorHandler.isRetryableError (e i) = true) :
    ∀ (remaining attempt : Nat),
      (ErrorHandler.withRetryGo op cfg attempt remaining).result =
        .error (e (attempt + remaining)) ∧
      (ErrorHandler.withRetryGo op cfg attempt remaining).calls =
        remaining + 1 := by
  intro remaining
  induction remaining with
  | zero =>
      intro attempt
      simp [ErrorHandler.withRetryGo, hop attempt]
  | succ r ih =>
      intro attempt
      simp only [ErrorHandler.withRetryGo, hop attempt, hr attempt, if_true]
      refine ⟨?_, ?_⟩
      · rw [(ih (attempt + 1)).1,
          show attempt + 1 + r = attempt + (r + 1) from by omega]
      · rw [(ih (attempt + 1)).2]

/-- C2 counterexample: an error whose message is "access denied" is
classified permission-denied and recoverable by
handleCostExplorerError, yet withRetry with two allowed retries invokes
the failing operation exactly once and propagates the error — it does
not retry a permission-denied failure. -/
theorem C2_claim_counterexample :
    (ErrorHandler.handleCostExplorerError ⟨"", "access denied"⟩).recoverable = true ∧
    (@ErrorHandler.withRetry Nat (fun _ => .error ⟨"", "access denied"⟩)
      ⟨2, 1000, 5000, 2⟩).calls = 1 ∧
    (@ErrorHandler.withRetry Nat (fun _ => .error ⟨"", "access denied"⟩)
      ⟨2, 1000, 5000, 2⟩).result = .error ⟨"", "access denied"⟩ :=
  ⟨by decide, by decide, rfl⟩

/-- C2 (amended): when an attempt fails before the last allowed
attempt, withRetry stops immediately and propagates exactly when
ErrorHandler.isRetryableError rejects the message — a substring list
under which permission-denied is non-retryable, regardless of the
classifier's recoverable flag; otherwise it retries. -/
theorem C2_withRetry_stops_iff_nonretryable {α : Type}
    (op : Nat → Except ErrorHandler.JSError α) (cfg : ErrorHandler.RetryConfig)
    (e : ErrorHandler.JSError) (hm : 0 < cfg.maxRetries)
    (h0 : op 0 = .error e) :
    ((ErrorHandler.withRetry op cfg).calls = 1 ↔
      ErrorHandler.isRetryableError e = false) ∧
    (ErrorHandler.isRetryableError e = false →
      (ErrorHandler.withRetry op cfg).result = .error e) := by
  obtain ⟨m, hm'⟩ : ∃ m, cfg.maxRetries = m + 1 := ⟨cfg.maxRetries - 1, by omega⟩
  unfold ErrorHandler.withRetry
  rw [hm']
  by_cases hr : ErrorHandler.isRetryableError e = true
  · simp only [ErrorHandler.withRetryGo, h0, hr, if_true, Nat.zero_add]
    have hpos := withRetryGo_calls_pos op cfg 1 m
    refine ⟨⟨fun hc => absurd hc (by omega), fun hf => absurd hf (by simp)⟩,
      fun hf => absurd hf (by simp)⟩
  · have hrf : ErrorHandler.isRetryableError e = false := by
      revert hr
      cases ErrorHandler.isRetryableError e <;> simp
    simp only [ErrorHandler.withRetryGo, h0, hrf, if_false]
    exact ⟨by simp, fun _ => rfl⟩

/-- C2 witness: instantiating the amended theorem at a permission-denied
message shows the single call and the unchanged propagated error. -/
theorem C2_withRetry_stops_iff_nonretryable_witness :
    ((@ErrorHandler.withRetry Nat (fun _ => .error ⟨"", "permission denied"⟩)
        ⟨2, 1000, 5000, 2⟩).calls = 1 ↔
      ErrorHandler.isRetryableError ⟨"", "permission denied"⟩ = false) ∧
    (ErrorHandler.isRetryableError ⟨"", "permission denied"⟩ = false →
      (@ErrorHandler.withRetry Nat (fun _ => .error ⟨"", "permission denied"⟩)
        ⟨2, 1000, 5000, 2⟩).result = .error ⟨"", "permission denied"⟩) :=
  C2_withRetry_stops_iff_nonretryable
    (fun _ => .error ⟨"", "permission denied"⟩) ⟨2, 1000, 5000, 2⟩
    ⟨"", "permission denied"⟩ (by decide) rfl

/-- C6: under maxRetries = 2, an operation that fails on every attempt
with a retryable error is invoked exactly 3 times, and the error thrown
by the final attempt is propagated unchanged. -/
theorem C6_retry_termination {α : Type} (e : Nat → ErrorHandler.JSError)
    (base maxd mult : Nat)
    (hr : ∀ i, ErrorHandler.isRetryableError (e i) = true) :
    (@ErrorHandler.withRetry α (fun i => .error (e i))
      ⟨2, base, maxd, mult⟩).calls = 3 ∧
    (@ErrorHandler.withRetry α (fun i => .error (e i))
      ⟨2, base, maxd, mult⟩).result = .error (e 2) := by
  have h := withRetryGo_all_fail (fun i => (.error (e i) : Except _ α))
    ⟨2, base, maxd, mult⟩ e (fun _ => rfl) hr 2 0
  exact ⟨h.2, h.1⟩

/-- C6 witness: a concrete always-failing timeout operation under
maxRetries = 2 is called three times and the final error propagates. -/
theorem C6_retry_termination_witness :
    (@ErrorHandler.withRetry Nat (fun _ => .error ⟨"", "timeout"⟩)
      ⟨2, 1000, 5000, 2⟩).calls = 3 ∧
    (@ErrorHandler.withRetry Nat (fun _ => .error ⟨"", "timeout"⟩)
      ⟨2, 1000, 5000, 2⟩).result = .error ⟨"", "timeout"⟩ := by
  have h : ErrorHandler.isRetryableError ⟨"", "timeout"⟩ = true := by decide
  exact C6_retry_termination (fun _ => ⟨"", "timeout"⟩) 1000 5000 2 (fun _ => h)

/-- Keys of the shape prefix ++ region ++ "-" ++ tail, with identical
prefix and tail, determine the region. -/
theorem key_inj (p r1 r2 t : String) (hne : r1 ≠ r2) :
    p ++ r1 ++ "-" ++ t ≠ p ++ r2 ++ "-" ++ t := by
  intro h
  apply hne
  have hd : (p ++ r1 ++ "-" ++ t).data = (p ++ r2 ++ "-" ++ t).data :=
    congrArg String.data h
  simp only [String.data_append] at hd
  have h1 := List.append_cancel_right hd
  have h2 := List.append_cancel_right h1
  have h3 := List.append_cancel_left h2
  exact congrArg String.mk h3

/-- C8 counterexample: two Lambda items with the same raw id ("x") but
different regions ("us-east" and "us-east-1") share the crossRegionKey
"lambda-us-east-1-f", because the Lambda key interpolates the function
name rather than the raw id, so the region/name concatenations
coincide. -/
theorem C8_claim_counterexample :
    (MultiRegionClient.mkLambdaResource "us-east" "t"
        ⟨some "x", some "1-f", none⟩).id =
      (MultiRegionClient.mkLambdaResource "us-east-1" "t"
        ⟨some "x", some "f", none⟩).id ∧
    (MultiRegionClient.mkLambdaResource "us-east" "t"
        ⟨some "x", some "1-f", none⟩).region ≠
      (MultiRegionClient.mkLambdaResource "us-east-1" "t"
        ⟨some "x", some "f", none⟩).region ∧
    (MultiRegionClient.mkLambdaResource "us-east" "t"
        ⟨some "x", some "1-f", none⟩).crossRegionId =
      (MultiRegionClient.mkLambdaResource "us-east-1" "t"
        ⟨some "x", some "f", none⟩).crossRegionId :=
  ⟨rfl, by decide, rfl⟩

/-- C8 (amended): the EC2 key is "ec2-" ++ region ++ "-" ++ rawId, so
two EC2 items with the same raw InstanceId but different regions always
get different keys; the Lambda key is built from the function name —
not the raw id, which is the FunctionArn — so the corresponding
guarantee for Lambda holds for items with the same function name but
different regions. -/
theorem C8_crossRegionKey_injectivity :
    (∀ (r1 r2 now1 now2 : String) (i1 i2 : MultiRegionClient.RawInstance),
      i1.instanceId = i2.instanceId → r1 ≠ r2 →
      (MultiRegionClient.mkEC2Resource r1 now1 i1).crossRegionId ≠
        (MultiRegionClient.mkEC2Resource r2 now2 i2).crossRegionId) ∧
    (∀ (r1 r2 now1 now2 : String) (g1 g2 : MultiRegionClient.RawFunction),
      g1.functionName = g2.functionName → r1 ≠ r2 →
      (MultiRegionClient.mkLambdaResource r1 now1 g1).crossRegionId ≠
        (MultiRegionClient.mkLambdaResource r2 now2 g2).crossRegionId) := by
  constructor
  · intro r1 r2 now1 now2 i1 i2 hid hne h
    simp only [MultiRegionClient.mkEC2Resource, hid] at h
    exact key_inj "ec2-" r1 r2 (jsTemplate i2.instanceId) hne h
  · intro r1 r2 now1 now2 g1 g2 hid hne h
    simp only [MultiRegionClient.mkLambdaResource, hid] at h
    exact key_inj "lambda-" r1 r2 (jsTemplate g2.functionName) hne h

/-- C8 witness: two concrete EC2 items with the same InstanceId in
different regions have different keys. -/
theorem C8_crossRegionKey_injectivity_witness :
    (MultiRegionClient.mkEC2Resource "us-east-1" "t"
        ⟨some "i-1", none, none, none, none⟩).crossRegionId ≠
      (MultiRegionClient.mkEC2Resource "us-west-2" "t"
        ⟨some "i-1", none, none, none, none⟩).crossRegionId :=
  C8_crossRegionKey_injectivity.1 "us-east-1" "us-west-2" "t" "t"
    ⟨some "i-1", none, none, none, none⟩ ⟨some "i-1", none, none, none, none⟩
    rfl (by decide)

/-- A non-matching element of a list survives dropWhile. -/
theorem mem_dropWhile_of_not {p : Char → Bool} {c : Char} (hc : p c = false) :
    ∀ {l : List Char}, c ∈ l → c ∈ l.dropWhile p := by
  intro l
  induction l with
  | nil => intro h; exact absurd h (by simp)
  | cons a t ih =>
      intro h
      by_cases ha : p a = true
      · rw [List.dropWhile_cons, if_pos ha]
        rcases List.mem_cons.mp h with rfl | hmem
        · rw [ha] at hc; cases hc
        · exact ih hmem
      · rw [List.dropWhile_cons, if_neg ha]
        exact h

/-- A string containing a non-whitespace character does not trim to the
empty string. -/
theorem jsTrim_ne_empty (s : String) (c : Char) (hc : c ∈ s.data)
    (hw : c.isWhitespace = false) : jsTrim s ≠ "" := by
  intro h
  have hdata : (((s.data.dropWhile Char.isWhitespace).reverse.dropWhile
      Char.isWhitespace).reverse) = [] := congrArg String.data h
  have h1 : c ∈ s.data.dropWhile Char.isWhitespace := mem_dropWhile_of_not hw hc
  have h2 : c ∈ (s.data.dropWhile Char.isWhitespace).reverse :=
    List.mem_reverse.mpr h1
  have h3 : c ∈ (s.data.dropWhile Char.isWhitespace).reverse.dropWhile
      Char.isWhitespace := mem_dropWhile_of_not hw h2
  have h4 : c ∈ ((s.data.dropWhile Char.isWhitespace).reverse.dropWhile
      Char.isWhitespace).reverse := List.mem_reverse.mpr h3
  rw [hdata] at h4
  exact absurd h4 (by simp)

/-- Splitting a ++ sep :: rest at sep, when a is separator-free, peels
off a as the first field. -/
theorem jsSplitCharList_sep_append (sep : Char) (a rest : List Char)
    (ha : sep ∉ a) :
    jsSplitCharList sep (a ++ sep :: rest) = a :: jsSplitCharList sep rest := by
  induction a with
  | nil => simp [jsSplitCharList]
  | cons c cs ih =>
      have hc : ¬ (c = sep) := fun e => ha (e ▸ List.mem_cons_self c cs)
      have ihr := ih (fun hm => ha (List.mem_cons_of_mem c hm))
      simp only [List.cons_append, jsSplitCharList, List.append_eq, ihr,
        if_neg hc]

/-- Splitting a separator-free list yields a single field. -/
theorem jsSplitCharList_no_sep (sep : Char) :
    ∀ (a : List Char), sep ∉ a → jsSplitCharList sep a = [a] := by
  intro a
  induction a with
  | nil => intro _; rfl
  | cons c cs ih =>
      intro ha
      have hc : ¬ (c = sep) := fun e => ha (e ▸ List.mem_cons_self c cs)
      have ihr := ih (fun hm => ha (List.mem_cons_of_mem c hm))
      simp only [jsSplitCharList, ihr, if_neg hc]

/-- Splitting the comma-join of comma-free strings recovers the list. -/
theorem jsSplit_jsJoin : ∀ (S : List String), S ≠ [] →
    (∀ s ∈ S, ',' ∉ s.data) → jsSplit ',' (jsJoin "," S) = S := by
  intro S
  induction S with
  | nil => intro h; exact absurd rfl h
  | cons s rest ih =>
      intro _ h
      cases rest with
      | nil =>
          simp [jsSplit, jsJoin,
            jsSplitCharList_no_sep ',' s.data (h s (by simp))]
      | cons t rest' =>
          have hd : (jsJoin "," (s :: t :: rest')).data =
              s.data ++ ',' :: (jsJoin "," (t :: rest')).data := by
            show (s ++ "," ++ jsJoin "," (t :: rest')).data = _
            simp [String.data_append]
          have hrec := ih (by simp)
            (fun x hx => h x (List.mem_cons_of_mem s hx))
          simp only [jsSplit] at hrec
          simp only [jsSplit, hd,
            jsSplitCharList_sep_append ',' s.data _ (h s (by simp)),
            List.map_cons, hrec]

/-- Mapping a function that fixes every element of a list is the
identity on that list. -/
theorem map_fix_eq_self (f : String → String) :
    ∀ (l : List String), (∀ x ∈ l, f x = x) → l.map f = l := by
  intro l
  induction l with
  | nil => intro _; rfl
  | cons a t ih =>
      intro h
      simp only [List.map_cons, h a (List.mem_cons_self a t),
        ih (fun x hx => h x (List.mem_cons_of_mem a hx))]

/-- Every token accepted by ConfigManager's validator is comma-free,
trim-fixed, non-empty, and contains a non-whitespace character. -/
theorem configValid_nice (r : String)
    (h : ConfigManager.isValidAWSRegion r = true) :
    ',' ∉ r.data ∧ jsTrim r = r ∧ 0 < r.length ∧
      ∃ c ∈ r.data, c.isWhitespace = false := by
  have hb : ConfigManager.validRegionsList.contains r = true := by
    have h' := h
    unfold ConfigManager.isValidAWSRegion at h'
    simp only [Bool.and_eq_true] at h'
    exact h'.2
  have hmem : r ∈ ConfigManager.validRegionsList := by simpa using hb
  have hall : ∀ x ∈ ConfigManager.validRegionsList,
      ',' ∉ x.data ∧ jsTrim x = x ∧ 0 < x.length ∧
        ∃ c ∈ x.data, c.isWhitespace = false := by decide
  exact hall r hmem

/-- C7: parseRegions is a left inverse of formatRegions on lists of
valid, duplicate-free region tokens — the round trip even preserves the
order, which implies the claimed set equality. -/
theorem C7_parse_format_roundtrip (S : List String)
    (hv : ∀ r ∈ S, ConfigManager.isValidAWSRegion r = true)
    (hn : S.Nodup) :
    ConfigManager.parseRegions (ConfigManager.formatRegions S) = S := by
  rcases hS : S with _ | ⟨s, rest⟩
  · decide
  · rw [← hS]
    have hSne : S ≠ [] := by rw [hS]; simp
    have hnice : ∀ r ∈ S, ',' ∉ r.data ∧ jsTrim r = r ∧ 0 < r.length ∧
        ∃ c ∈ r.data, c.isWhitespace = false :=
      fun r hr => configValid_nice r (hv r hr)
    have hvf : S.filter (fun r => ConfigManager.isValidAWSRegion r) = S :=
      List.filter_eq_self.mpr (fun a ha => hv a ha)
    have hded : jsSetDedup S = S := jsSetDedup_eq_self hn
    have hfmt : ConfigManager.formatRegions S = jsJoin "," S := by
      unfold ConfigManager.formatRegions
      rw [hvf, hded]
    have hsplit : jsSplit ',' (jsJoin "," S) = S :=
      jsSplit_jsJoin S hSne (fun r hr => (hnice r hr).1)
    have hguard : ¬ (jsTrim (jsJoin "," S) = "") := by
      obtain ⟨c, hc, hw⟩ := (hnice s (by rw [hS]; simp)).2.2.2
      refine jsTrim_ne_empty (jsJoin "," S) c ?_ hw
      rw [hS]
      cases rest with
      | nil => simpa [jsJoin] using hc
      | cons t rest' =>
          have hd : (jsJoin "," (s :: t :: rest')).data =
              s.data ++ ',' :: (jsJoin "," (t :: rest')).data := by
            show (s ++ "," ++ jsJoin "," (t :: rest')).data = _
            simp [String.data_append]
          rw [hd]
          exact List.mem_append.mpr (Or.inl hc)
    rw [hfmt]
    unfold ConfigManager.parseRegions
    rw [if_neg hguard, hsplit,
      map_fix_eq_self jsTrim S (fun x hx => (hnice x hx).2.1)]
    have hlen : S.filter (fun r => decide (0 < r.length)) = S :=
      List.filter_eq_self.mpr (fun a ha => by simpa using (hnice a ha).2.2.1)
    rw [hlen, hvf, hded]

/-- C7 witness: a concrete valid duplicate-free region list survives
the format/parse round trip. -/
theorem C7_parse_format_roundtrip_witness :
    (∀ r ∈ (["us-east-1", "eu-west-1"] : List String),
      ConfigManager.isValidAWSRegion r = true) ∧
    (["us-east-1", "eu-west-1"] : List String).Nodup ∧
    ConfigManager.parseRegions
      (ConfigManager.formatRegions ["us-east-1", "eu-west-1"]) =
      ["us-east-1", "eu-west-1"] :=
  ⟨by decide, by decide,
    C7_parse_format_roundtrip ["us-east-1", "eu-west-1"] (by decide) (by decide)⟩
